import Mathlib

/-!
Shallow embedding of the tab bar layout and selection logic of
`src/quicktemplates2/qquicktabbar.cpp`.

Geometry values (`qreal`) are modelled as exact rationals, `qFuzzyCompare`
is translated with its Qt definition over those rationals, and the ordered
child collection is a list.  A `none` entry of the list models a null child
pointer, which the layout loop skips.  Change notifications are returned
explicitly as `Emits` flags.
-/

namespace QQuickTabBar

/-- A child item as seen by the tab bar: the fields of `QQuickItem` (plus the
tab-button subtype's checked flag) that the tab bar reads or writes. -/
structure Item where
  width : ℚ
  implicitWidth : ℚ
  implicitHeight : ℚ
  widthValid : Bool
  isTabButton : Bool
  checked : Bool
deriving DecidableEq, Repr

/-- Modelled from the spec: the external `QQuickItem` width setter (not part of
this file's sources) stores the width and marks it as explicitly set, firing a
geometry-changed notification; the layout engine afterwards clears that flag
since computed widths are not explicit overrides. -/
def Item.setWidth (it : Item) (w : ℚ) : Item :=
  { it with width := w, widthValid := true }

/-- The state of one tab bar: the fields of `QQuickTabBarPrivate` together
with the container state the file reads (`contentModel` as `items`,
`spacing`, `contentItem`'s width, `currentIndex`, component completeness). -/
structure TabBarState where
  items : List (Option Item)
  spacing : ℚ
  contentItemWidth : Option ℚ
  updatingLayout : Bool
  hasContentWidth : Bool
  hasContentHeight : Bool
  contentWidth : ℚ
  contentHeight : ℚ
  currentIndex : ℤ
  componentComplete : Bool
deriving DecidableEq, Repr

/-- Which change notifications a call emitted. -/
structure Emits where
  contentWidthChanged : Bool
  contentHeightChanged : Bool
deriving DecidableEq, Repr

def noEmits : Emits := ⟨false, false⟩

def Emits.merge (a b : Emits) : Emits :=
  ⟨a.contentWidthChanged || b.contentWidthChanged,
   a.contentHeightChanged || b.contentHeightChanged⟩

/-- Qt's `qAbs`. -/
def qAbs (q : ℚ) : ℚ := if q < 0 then -q else q

/-- Qt's `qMin`: `(a < b) ? a : b`. -/
def qMin (a b : ℚ) : ℚ := if a < b then a else b

/-- Qt's `qMax`: `(a < b) ? b : a`. -/
def qMax (a b : ℚ) : ℚ := if a < b then b else a

/-- Qt's `qMax` on C++ ints. -/
def qMaxInt (a b : ℤ) : ℤ := if a < b then b else a

/-- Qt's `qFuzzyCompare` for doubles, translated over exact rationals:
`qAbs(p1 - p2) * 1000000000000. <= qMin(qAbs(p1), qAbs(p2))`. -/
def qFuzzyCompare (p1 p2 : ℚ) : Bool :=
  decide (qAbs (p1 - p2) * 1000000000000 ≤ qMin (qAbs p1) (qAbs p2))

/-- Result of the first pass of `updateLayout` over the children:
`maxHeight`, `totalWidth` (children only, spacing not yet added),
`reservedWidth`, and the positions of the resizable children. -/
structure ScanResult where
  maxHeight : ℚ
  totalWidth : ℚ
  reservedWidth : ℚ
  resizable : List ℕ
deriving DecidableEq, Repr

/-- The first loop of `QQuickTabBarPrivate::updateLayout`: children without an
explicit width join the resizable set and contribute their implicit width,
the others contribute their current width to both totals; `i` is the position
of the first list entry. -/
def scanItems : ℕ → List (Option Item) → ScanResult
  | _, [] => ⟨0, 0, 0, []⟩
  | i, none :: rest => scanItems (i + 1) rest
  | i, some item :: rest =>
      let r := scanItems (i + 1) rest
      if item.widthValid then
        { r with
          totalWidth := item.width + r.totalWidth
          reservedWidth := item.width + r.reservedWidth
          maxHeight := qMax item.implicitHeight r.maxHeight }
      else
        { r with
          totalWidth := item.implicitWidth + r.totalWidth
          resizable := i :: r.resizable
          maxHeight := qMax item.implicitHeight r.maxHeight }

/-- Apply `f` to the (present) item at position `i`. -/
def modifyItem (f : Item → Item) : List (Option Item) → ℕ → List (Option Item)
  | [], _ => []
  | o :: rest, 0 => o.map f :: rest
  | o :: rest, n + 1 => o :: modifyItem f rest n

/-- The net effect of one assignment-loop iteration on an item:
`item->setWidth(itemWidth)` followed by clearing the explicit-width flag. -/
def assignFun (w : ℚ) (it : Item) : Item :=
  { it.setWidth w with widthValid := false }

/-- The width-assignment loop of `updateLayout` without the geometry
notifications each `setWidth` fires (they are suppressed by the
`updatingLayout` guard): each resizable child gets width `w` and its
explicit-width flag cleared. -/
def assignWidths (items : List (Option Item)) (idxs : List ℕ) (w : ℚ) :
    List (Option Item) :=
  idxs.foldl (fun acc i => modifyItem (assignFun w) acc i) items

/-- Spacing reserved between children: `qMax(0, count - 1) * spacing`. -/
def totalSpacingOf (count : ℕ) (spacing : ℚ) : ℚ :=
  ((qMaxInt 0 ((count : ℤ) - 1)) : ℚ) * spacing

/-- The per-item width of `updateLayout`:
`(contentItem->width() - reservedWidth - totalSpacing) / resizableItems.count()`. -/
def perItemWidth (s : TabBarState) (ciw : ℚ) : ℚ :=
  (ciw - (scanItems 0 s.items).reservedWidth -
      totalSpacingOf s.items.length s.spacing) /
    ((scanItems 0 s.items).resizable.length : ℚ)

/-- `QQuickTabBarPrivate::updateLayout`, with the re-entrant geometry
notifications of the assignment loop elided (the guard makes them no-ops;
`updateLayoutNotified` below models them explicitly and is proved equal). -/
def updateLayout (s : TabBarState) : TabBarState × Emits :=
  match s.contentItemWidth with
  | none => (s, noEmits)
  | some ciw =>
    if s.items.length = 0 then (s, noEmits)
    else
      let r := scanItems 0 s.items
      let totalSpacing := totalSpacingOf s.items.length s.spacing
      let totalWidth := r.totalWidth + totalSpacing
      let s1 :=
        if r.resizable.isEmpty then s
        else
          let itemWidth :=
            (ciw - r.reservedWidth - totalSpacing) / (r.resizable.length : ℚ)
          { s with
            items := assignWidths s.items r.resizable itemWidth
            updatingLayout := false }
      let wChange := !s1.hasContentWidth && !qFuzzyCompare s1.contentWidth totalWidth
      let hChange := !s1.hasContentHeight && !qFuzzyCompare s1.contentHeight r.maxHeight
      ({ s1 with
         contentWidth := if wChange then totalWidth else s1.contentWidth
         contentHeight := if hChange then r.maxHeight else s1.contentHeight },
       ⟨wChange, hChange⟩)

/-- `QQuickTabBarPrivate::itemGeometryChanged`: a child geometry notification
re-runs the layout unless the guard is up. -/
def itemGeometryChanged (s : TabBarState) : TabBarState × Emits :=
  if s.updatingLayout then (s, noEmits) else updateLayout s

/-- `QQuickTabBarPrivate::itemImplicitWidthChanged`. -/
def itemImplicitWidthChanged (s : TabBarState) : TabBarState × Emits :=
  if !s.updatingLayout && !s.hasContentWidth then updateLayout s else (s, noEmits)

/-- `QQuickTabBarPrivate::itemImplicitHeightChanged`. -/
def itemImplicitHeightChanged (s : TabBarState) : TabBarState × Emits :=
  if !s.updatingLayout && !s.hasContentHeight then updateLayout s else (s, noEmits)

/-- One step of the assignment loop with the notification it fires:
`item->setWidth(itemWidth)` synchronously triggers `itemGeometryChanged` on
the intermediate state, after which the explicit-width flag is cleared. -/
def assignStepNotified (w : ℚ) (se : TabBarState × Emits) (i : ℕ) :
    TabBarState × Emits :=
  let s1 := { se.1 with items := modifyItem (fun it => it.setWidth w) se.1.items i }
  let p := itemGeometryChanged s1
  ({ p.1 with items := modifyItem (fun it => { it with widthValid := false }) p.1.items i },
   se.2.merge p.2)

/-- `QQuickTabBarPrivate::updateLayout` with the geometry notifications of
the assignment loop modelled explicitly: the guard is raised before the
loop, each width assignment fires `itemGeometryChanged` on the intermediate
state, and the guard is lowered afterwards. -/
def updateLayoutNotified (s : TabBarState) : TabBarState × Emits :=
  match s.contentItemWidth with
  | none => (s, noEmits)
  | some ciw =>
    if s.items.length = 0 then (s, noEmits)
    else
      let r := scanItems 0 s.items
      let totalSpacing := totalSpacingOf s.items.length s.spacing
      let totalWidth := r.totalWidth + totalSpacing
      let p1 :=
        if r.resizable.isEmpty then (s, noEmits)
        else
          let itemWidth :=
            (ciw - r.reservedWidth - totalSpacing) / (r.resizable.length : ℚ)
          let p := r.resizable.foldl (assignStepNotified itemWidth)
            ({ s with updatingLayout := true }, noEmits)
          ({ p.1 with updatingLayout := false }, p.2)
      let s1 := p1.1
      let wChange := !s1.hasContentWidth && !qFuzzyCompare s1.contentWidth totalWidth
      let hChange := !s1.hasContentHeight && !qFuzzyCompare s1.contentHeight r.maxHeight
      ({ s1 with
         contentWidth := if wChange then totalWidth else s1.contentWidth
         contentHeight := if hChange then r.maxHeight else s1.contentHeight },
       p1.2.merge ⟨wChange, hChange⟩)

/-- `contentModel->get(index)`: the child at `index`, or nothing when the
index is out of range (a negative or too large index misses). -/
def contentModelGet (items : List (Option Item)) (idx : ℤ) : Option Item :=
  if 0 ≤ idx then (items.get? idx.toNat).join else none

/-- `qobject_cast<QQuickTabButton *>`: succeeds only on tab-button items. -/
def castTabButton : Option Item → Option Item
  | some it => if it.isTabButton then some it else none
  | none => none

/-- `QQuickTabBarPrivate::updateCurrentItem`: look up the child at
`currentIndex`; when the lookup yields a tab button, set its checked flag
to true, otherwise do nothing. -/
def updateCurrentItem (s : TabBarState) : TabBarState :=
  match castTabButton (contentModelGet s.items s.currentIndex) with
  | some _ =>
      { s with
        items := modifyItem (fun it => { it with checked := true })
          s.items s.currentIndex.toNat }
  | none => s

/-- Modelled from the spec: the container's current-index setter (external to
this file's sources) stores the new index when it differs from the current
value and emits the index-changed notification, which the constructor wires
to `updateCurrentItem`. -/
def setCurrentIndex (s : TabBarState) (i : ℤ) : TabBarState :=
  if s.currentIndex = i then s
  else updateCurrentItem { s with currentIndex := i }

/-- `QQuickTabBarPrivate::updateCurrentIndex`: the sender of the
checked-changed notification is the child at position `sender`; when it is a
tab button whose checked flag is now true, its index becomes the current
index. -/
def updateCurrentIndex (s : TabBarState) (sender : ℕ) : TabBarState :=
  match (s.items.get? sender).join with
  | some it =>
      if it.isTabButton && it.checked then setCurrentIndex s (sender : ℤ)
      else s
  | none => s

/-- `QQuickTabBar::setContentWidth`. -/
def setContentWidth (s : TabBarState) (w : ℚ) : TabBarState × Emits :=
  let s1 := { s with hasContentWidth := true }
  if qFuzzyCompare s1.contentWidth w then (s1, noEmits)
  else ({ s1 with contentWidth := w }, ⟨true, false⟩)

/-- `QQuickTabBar::setContentHeight`. -/
def setContentHeight (s : TabBarState) (h : ℚ) : TabBarState × Emits :=
  let s1 := { s with hasContentHeight := true }
  if qFuzzyCompare s1.contentHeight h then (s1, noEmits)
  else ({ s1 with contentHeight := h }, ⟨false, true⟩)

/-- `QQuickTabBar::resetContentWidth`: a no-op unless the width is
overridden; otherwise clear the override and, once the component is
complete, re-run the layout. -/
def resetContentWidth (s : TabBarState) : TabBarState × Emits :=
  if !s.hasContentWidth then (s, noEmits)
  else
    let s1 := { s with hasContentWidth := false }
    if s1.componentComplete then updateLayout s1 else (s1, noEmits)

/-- `QQuickTabBar::resetContentHeight`. -/
def resetContentHeight (s : TabBarState) : TabBarState × Emits :=
  if !s.hasContentHeight then (s, noEmits)
  else
    let s1 := { s with hasContentHeight := false }
    if s1.componentComplete then updateLayout s1 else (s1, noEmits)

/-- `n` successive `updateLayout` calls (notification flags dropped). -/
def iterLayout : ℕ → TabBarState → TabBarState
  | 0, s => s
  | n + 1, s => iterLayout n (updateLayout s).1

/-! ### Helper lemmas -/

theorem qAbs_nonneg (q : ℚ) : 0 ≤ qAbs q := by
  unfold qAbs
  split <;> linarith

theorem qMin_self (a : ℚ) : qMin a a = a := by
  unfold qMin
  split <;> rfl

theorem qFuzzyCompare_self (x : ℚ) : qFuzzyCompare x x = true := by
  have h0 : qAbs (x - x) = 0 := by
    rw [sub_self]
    rfl
  unfold qFuzzyCompare
  rw [h0, qMin_self, zero_mul]
  exact decide_eq_true (qAbs_nonneg x)

theorem modifyItem_length (f : Item → Item) (l : List (Option Item)) (i : ℕ) :
    (modifyItem f l i).length = l.length := by
  induction l generalizing i with
  | nil => rfl
  | cons o rest ih =>
    cases i with
    | zero => rfl
    | succ n => simp [modifyItem, ih]

theorem modifyItem_get?_ne (f : Item → Item) (l : List (Option Item))
    (i j : ℕ) (h : i ≠ j) : (modifyItem f l i).get? j = l.get? j := by
  induction l generalizing i j with
  | nil => rfl
  | cons o rest ih =>
    cases i with
    | zero =>
      cases j with
      | zero => exact absurd rfl h
      | succ m => rfl
    | succ n =>
      cases j with
      | zero => rfl
      | succ m => simpa [modifyItem] using ih n m (by omega)

theorem modifyItem_get?_eq (f : Item → Item) (l : List (Option Item)) (i : ℕ) :
    (modifyItem f l i).get? i = (l.get? i).map (Option.map f) := by
  induction l generalizing i with
  | nil => rfl
  | cons o rest ih =>
    cases i with
    | zero => rfl
    | succ n => simpa [modifyItem] using ih n

theorem modifyItem_comp (f g : Item → Item) (l : List (Option Item)) (i : ℕ) :
    modifyItem f (modifyItem g l i) i = modifyItem (fun it => f (g it)) l i := by
  induction l generalizing i with
  | nil => rfl
  | cons o rest ih =>
    cases i with
    | zero => cases o <;> rfl
    | succ n => simp [modifyItem, ih]

theorem assignFun_idem (w : ℚ) (it : Item) :
    assignFun w (assignFun w it) = assignFun w it := rfl

theorem assignWidths_length (l : List (Option Item)) (idxs : List ℕ) (w : ℚ) :
    (assignWidths l idxs w).length = l.length := by
  induction idxs generalizing l with
  | nil => rfl
  | cons i rest ih =>
    simp only [assignWidths, List.foldl_cons] at ih ⊢
    rw [ih, modifyItem_length]

theorem assignWidths_get?_not_mem (l : List (Option Item)) (idxs : List ℕ)
    (w : ℚ) (j : ℕ) (h : j ∉ idxs) :
    (assignWidths l idxs w).get? j = l.get? j := by
  induction idxs generalizing l with
  | nil => rfl
  | cons i rest ih =>
    simp only [assignWidths, List.foldl_cons] at ih ⊢
    rw [ih _ (fun hm => h (List.mem_cons_of_mem i hm)),
      modifyItem_get?_ne _ _ i j (fun he => h (he ▸ List.mem_cons_self i rest))]

theorem assignWidths_get?_mem (l : List (Option Item)) (idxs : List ℕ)
    (w : ℚ) (j : ℕ) (h : j ∈ idxs) :
    (assignWidths l idxs w).get? j = (l.get? j).map (Option.map (assignFun w)) := by
  induction idxs generalizing l with
  | nil => simp at h
  | cons i rest ih =>
    simp only [assignWidths, List.foldl_cons] at ih ⊢
    by_cases hr : j ∈ rest
    · rw [ih _ hr]
      by_cases hij : i = j
      · subst hij
        rw [modifyItem_get?_eq]
        cases hl : l.get? i with
        | none => rfl
        | some o =>
          cases o with
          | none => rfl
          | some it => simp [assignFun_idem]
      · rw [modifyItem_get?_ne _ _ i j hij]
    · have hij : i = j := by
        rcases List.mem_cons.mp h with h1 | h2
        · exact h1.symm
        · exact absurd h2 hr
      subst hij
      have hnm := assignWidths_get?_not_mem (modifyItem (assignFun w) l i) rest w i hr
      simp only [assignWidths] at hnm
      rw [hnm, modifyItem_get?_eq]

/-- The projection of a child that the scan loop reads: the explicit-width
flag, the width contribution, and the implicit height. -/
def scanKey : Option Item → Option (Bool × ℚ × ℚ)
  | none => none
  | some it =>
      some (it.widthValid,
        if it.widthValid then it.width else it.implicitWidth,
        it.implicitHeight)

theorem scanItems_congr (l1 l2 : List (Option Item))
    (h : l1.map scanKey = l2.map scanKey) (i : ℕ) :
    scanItems i l1 = scanItems i l2 := by
  induction l1 generalizing l2 i with
  | nil =>
    cases l2 with
    | nil => rfl
    | cons o2 rest2 => simp at h
  | cons o rest ih =>
    cases l2 with
    | nil => simp at h
    | cons o2 rest2 =>
      simp only [List.map_cons, List.cons.injEq] at h
      obtain ⟨h1, h2⟩ := h
      cases o with
      | none =>
        cases o2 with
        | none => simpa [scanItems] using ih rest2 h2 (i + 1)
        | some it2 => simp [scanKey] at h1
      | some it =>
        cases o2 with
        | none => simp [scanKey] at h1
        | some it2 =>
          simp only [scanKey, Option.some.injEq, Prod.mk.injEq] at h1
          obtain ⟨hv, hw, hh⟩ := h1
          simp only [scanItems]
          rw [ih rest2 h2 (i + 1), hv, hh] at *
          rw [hv] at hw
          cases h2v : it2.widthValid <;> simp_all

theorem assignWidths_scanKey (l : List (Option Item)) (idxs : List ℕ) (w : ℚ)
    (h : ∀ j ∈ idxs, ∀ it : Item, l.get? j = some (some it) →
      it.widthValid = false) :
    (assignWidths l idxs w).map scanKey = l.map scanKey := by
  apply List.ext_get?
  intro n
  rw [List.get?_map, List.get?_map]
  by_cases hm : n ∈ idxs
  · rw [assignWidths_get?_mem _ _ _ _ hm]
    cases hl : l.get? n with
    | none => rfl
    | some o =>
      cases o with
      | none => rfl
      | some it =>
        have hv := h n hm it hl
        simp [scanKey, assignFun, Item.setWidth, hv]
  · rw [assignWidths_get?_not_mem _ _ _ _ hm]

theorem scanItems_resizable_spec (l : List (Option Item)) (i j : ℕ)
    (h : j ∈ (scanItems i l).resizable) :
    i ≤ j ∧ ∃ it : Item, l.get? (j - i) = some (some it) ∧
      it.widthValid = false := by
  induction l generalizing i with
  | nil => simp [scanItems] at h
  | cons o rest ih =>
    cases o with
    | none =>
      obtain ⟨hij, it, hget, hv⟩ := ih (i + 1) (by simpa [scanItems] using h)
      refine ⟨by omega, it, ?_, hv⟩
      rw [show j - i = (j - (i + 1)) + 1 by omega]
      simpa using hget
    | some it0 =>
      simp only [scanItems] at h
      cases hb : it0.widthValid with
      | true =>
        rw [hb] at h
        simp only [if_true] at h
        obtain ⟨hij, it, hget, hv⟩ := ih (i + 1) h
        refine ⟨by omega, it, ?_, hv⟩
        rw [show j - i = (j - (i + 1)) + 1 by omega]
        simpa using hget
      | false =>
        rw [hb] at h
        simp only [Bool.false_eq_true, if_false] at h
        rcases List.mem_cons.mp h with h1 | h1
        · subst h1
          exact ⟨le_refl j, it0, by simp, hb⟩
        · obtain ⟨hij, it, hget, hv⟩ := ih (i + 1) h1
          refine ⟨by omega, it, ?_, hv⟩
          rw [show j - i = (j - (i + 1)) + 1 by omega]
          simpa using hget

theorem scanItems_resizable_mem (l : List (Option Item)) (i k : ℕ) (it : Item)
    (hget : l.get? k = some (some it)) (hv : it.widthValid = false) :
    (i + k) ∈ (scanItems i l).resizable := by
  induction l generalizing i k with
  | nil => simp at hget
  | cons o rest ih =>
    cases k with
    | zero =>
      cases o with
      | none => simp at hget
      | some it0 =>
        have : it0 = it := by simpa using hget
        subst this
        simp [scanItems, hv]
    | succ m =>
      have hrest : rest.get? m = some (some it) := by simpa using hget
      cases o with
      | none =>
        have := ih (i + 1) m hrest
        simpa [scanItems, Nat.add_assoc, Nat.add_comm 1 m] using this
      | some it0 =>
        have hmem := ih (i + 1) m hrest
        have harith : i + 1 + m = i + (m + 1) := by omega
        rw [harith] at hmem
        cases hb : it0.widthValid with
        | true => simpa [scanItems, hb] using hmem
        | false =>
          simp only [scanItems, hb, if_false]
          exact List.mem_cons_of_mem i hmem

theorem scanItems_all_resizable (l : List (Option Item)) (i : ℕ)
    (h : ∀ o ∈ l, ∃ it : Item, o = some it ∧ it.widthValid = false) :
    (scanItems i l).reservedWidth = 0 ∧
      (scanItems i l).resizable = List.range' i l.length := by
  induction l generalizing i with
  | nil => simp [scanItems]
  | cons o rest ih =>
    obtain ⟨it, rfl, hv⟩ := h o (List.mem_cons_self o rest)
    obtain ⟨ih1, ih2⟩ := ih (i + 1) (fun o ho => h o (List.mem_cons_of_mem _ ho))
    simp [scanItems, hv, ih1, ih2, List.range'_succ]

theorem updateLayout_frame (s : TabBarState) :
    (updateLayout s).1.hasContentWidth = s.hasContentWidth ∧
    (updateLayout s).1.hasContentHeight = s.hasContentHeight ∧
    (updateLayout s).1.spacing = s.spacing ∧
    (updateLayout s).1.contentItemWidth = s.contentItemWidth ∧
    (updateLayout s).1.currentIndex = s.currentIndex ∧
    (updateLayout s).1.componentComplete = s.componentComplete ∧
    (updateLayout s).1.items.length = s.items.length := by
  unfold updateLayout
  cases hc : s.contentItemWidth with
  | none => simp [hc]
  | some ciw =>
    by_cases hn : s.items.length = 0
    · simp [hn, hc]
    · by_cases hr : (scanItems 0 s.items).resizable.isEmpty <;>
        simp [hn, hr, hc, assignWidths_length]

theorem updateLayout_skip (s : TabBarState)
    (h : s.contentItemWidth = none ∨ s.items.length = 0) :
    updateLayout s = (s, noEmits) := by
  unfold updateLayout
  rcases h with h | h
  · rw [h]
  · cases hc : s.contentItemWidth with
    | none => rfl
    | some ciw => simp [h]

theorem updateLayout_resizable_items (s : TabBarState) (ciw : ℚ)
    (hc : s.contentItemWidth = some ciw) (hn : ¬s.items.length = 0)
    (hr : ¬(scanItems 0 s.items).resizable.isEmpty = true) :
    (updateLayout s).1.items =
      assignWidths s.items (scanItems 0 s.items).resizable (perItemWidth s ciw) ∧
    (updateLayout s).1.updatingLayout = false := by
  unfold updateLayout
  simp [hc, hn, hr, perItemWidth]

theorem updateLayout_no_resizable_items (s : TabBarState) (ciw : ℚ)
    (hc : s.contentItemWidth = some ciw) (hn : ¬s.items.length = 0)
    (hr : (scanItems 0 s.items).resizable.isEmpty = true) :
    (updateLayout s).1.items = s.items ∧
    (updateLayout s).1.updatingLayout = s.updatingLayout := by
  unfold updateLayout
  simp [hc, hn, hr]

theorem updateLayout_width_frozen (s : TabBarState)
    (hw : s.hasContentWidth = true) :
    (updateLayout s).1.contentWidth = s.contentWidth ∧
    (updateLayout s).2.contentWidthChanged = false := by
  unfold updateLayout
  cases hc : s.contentItemWidth with
  | none => simp [hc, noEmits]
  | some ciw =>
    by_cases hn : s.items.length = 0
    · simp [hn, hc, noEmits]
    · by_cases hr : (scanItems 0 s.items).resizable.isEmpty <;>
        simp [hn, hr, hc, hw]

theorem updateLayout_height_frozen (s : TabBarState)
    (hh : s.hasContentHeight = true) :
    (updateLayout s).1.contentHeight = s.contentHeight ∧
    (updateLayout s).2.contentHeightChanged = false := by
  unfold updateLayout
  cases hc : s.contentItemWidth with
  | none => simp [hc, noEmits]
  | some ciw =>
    by_cases hn : s.items.length = 0
    · simp [hn, hc, noEmits]
    · by_cases hr : (scanItems 0 s.items).resizable.isEmpty <;>
        simp [hn, hr, hc, hh]

theorem iterLayout_width_frozen (n : ℕ) (s : TabBarState)
    (hw : s.hasContentWidth = true) :
    (iterLayout n s).contentWidth = s.contentWidth := by
  induction n generalizing s with
  | zero => rfl
  | succ m ih =>
    have hfr := updateLayout_frame s
    have hcw := updateLayout_width_frozen s hw
    simp only [iterLayout]
    rw [ih _ (by rw [hfr.1, hw]), hcw.1]

theorem iterLayout_height_frozen (n : ℕ) (s : TabBarState)
    (hh : s.hasContentHeight = true) :
    (iterLayout n s).contentHeight = s.contentHeight := by
  induction n generalizing s with
  | zero => rfl
  | succ m ih =>
    have hfr := updateLayout_frame s
    have hch := updateLayout_height_frozen s hh
    simp only [iterLayout]
    rw [ih _ (by rw [hfr.2.1, hh]), hch.1]

/-! ### Concrete states used to instantiate the theorems -/

/-- A resizable tab button (no explicit width). -/
def exItemR : Item := ⟨50, 50, 20, false, true, false⟩

/-- A tab button with an explicit width. -/
def exItemF : Item := ⟨40, 60, 25, true, true, false⟩

/-- A bar with both content sizes overridden. -/
def exOverridden : TabBarState :=
  ⟨[some exItemR, some exItemF], 10, some 300, false, true, true, 5, 7, 0, true⟩

/-- A bar with one explicit-width child and one resizable child. -/
def exMixed : TabBarState :=
  ⟨[some exItemR, some exItemF], 10, some 300, false, false, false, 0, 0, 0, true⟩

/-! ### Claim theorems -/

/-- C3: once the content width is overridden (`hasContentWidth` true, the
state `setContentWidth` leaves behind), `updateLayout` leaves the stored
content width unchanged and emits no content-width-changed notification,
and since it also never clears the flag this persists over any number of
recomputes until `resetContentWidth`; symmetrically for the content
height. -/
theorem overridden_content_frozen (s : TabBarState) :
    (s.hasContentWidth = true →
      (updateLayout s).1.contentWidth = s.contentWidth ∧
      (updateLayout s).2.contentWidthChanged = false ∧
      (updateLayout s).1.hasContentWidth = true ∧
      ∀ n, (iterLayout n s).contentWidth = s.contentWidth) ∧
    (s.hasContentHeight = true →
      (updateLayout s).1.contentHeight = s.contentHeight ∧
      (updateLayout s).2.contentHeightChanged = false ∧
      (updateLayout s).1.hasContentHeight = true ∧
      ∀ n, (iterLayout n s).contentHeight = s.contentHeight) := by
  constructor
  · intro hw
    obtain ⟨h1, h2⟩ := updateLayout_width_frozen s hw
    exact ⟨h1, h2, by rw [(updateLayout_frame s).1, hw],
      fun n => iterLayout_width_frozen n s hw⟩
  · intro hh
    obtain ⟨h1, h2⟩ := updateLayout_height_frozen s hh
    exact ⟨h1, h2, by rw [(updateLayout_frame s).2.1, hh],
      fun n => iterLayout_height_frozen n s hh⟩

theorem overridden_content_frozen_witness :
    (updateLayout exOverridden).1.contentWidth = exOverridden.contentWidth ∧
    (updateLayout exOverridden).2.contentWidthChanged = false ∧
    (iterLayout 2 exOverridden).contentHeight = exOverridden.contentHeight :=
  ⟨((overridden_content_frozen exOverridden).1 rfl).1,
   ((overridden_content_frozen exOverridden).1 rfl).2.1,
   ((overridden_content_frozen exOverridden).2 rfl).2.2.2 2⟩

/-- C9: `updateLayout` never modifies a child whose explicit-width flag is
set at the start of the pass: that child (width, flags, everything) is the
same after the pass. -/
theorem explicit_width_untouched (s : TabBarState) (j : ℕ) (it : Item)
    (hget : s.items.get? j = some (some it)) (hv : it.widthValid = true) :
    (updateLayout s).1.items.get? j = some (some it) := by
  cases hc : s.contentItemWidth with
  | none =>
    rw [updateLayout_skip s (Or.inl hc)]
    exact hget
  | some ciw =>
    by_cases hn : s.items.length = 0
    · rw [updateLayout_skip s (Or.inr hn)]
      exact hget
    · have hnot : j ∉ (scanItems 0 s.items).resizable := by
        intro hmem
        obtain ⟨-, it2, hget2, hv2⟩ := scanItems_resizable_spec s.items 0 j hmem
        rw [Nat.sub_zero, hget] at hget2
        obtain rfl : it2 = it := by simpa using hget2.symm
        rw [hv] at hv2
        exact absurd hv2 (by simp)
      by_cases hr : (scanItems 0 s.items).resizable.isEmpty = true
      · rw [(updateLayout_no_resizable_items s ciw hc hn hr).1]
        exact hget
      · rw [(updateLayout_resizable_items s ciw hc hn hr).1,
          assignWidths_get?_not_mem _ _ _ _ hnot]
        exact hget

theorem explicit_width_untouched_witness :
    (updateLayout exMixed).1.items.get? 1 = some (some exItemF) :=
  explicit_width_untouched exMixed 1 exItemF rfl rfl

/-- C10: `setContentWidth` sets the override flag unconditionally; when the
supplied value is fuzzy-equal to the stored content width it emits nothing
and keeps the stored value, yet a subsequent `updateLayout` no longer
updates the content width; symmetrically for `setContentHeight`. -/
theorem setContent_flag_unconditional (s : TabBarState) (w h : ℚ) :
    ((setContentWidth s w).1.hasContentWidth = true) ∧
    (qFuzzyCompare s.contentWidth w = true →
      (setContentWidth s w).1.contentWidth = s.contentWidth ∧
      (setContentWidth s w).2 = noEmits ∧
      (updateLayout (setContentWidth s w).1).1.contentWidth = s.contentWidth ∧
      (updateLayout (setContentWidth s w).1).2.contentWidthChanged = false) ∧
    ((setContentHeight s h).1.hasContentHeight = true) ∧
    (qFuzzyCompare s.contentHeight h = true →
      (setContentHeight s h).1.contentHeight = s.contentHeight ∧
      (setContentHeight s h).2 = noEmits ∧
      (updateLayout (setContentHeight s h).1).1.contentHeight = s.contentHeight ∧
      (updateLayout (setContentHeight s h).1).2.contentHeightChanged = false) := by
  refine ⟨?_, ?_, ?_, ?_⟩
  · unfold setContentWidth
    by_cases hf : qFuzzyCompare s.contentWidth w = true <;> simp [hf]
  · intro hf
    have he : setContentWidth s w = ({ s with hasContentWidth := true }, noEmits) := by
      unfold setContentWidth
      simp [hf]
    have hfr := updateLayout_width_frozen { s with hasContentWidth := true } rfl
    rw [he]
    exact ⟨rfl, rfl, hfr.1, hfr.2⟩
  · unfold setContentHeight
    by_cases hf : qFuzzyCompare s.contentHeight h = true <;> simp [hf]
  · intro hf
    have he : setContentHeight s h = ({ s with hasContentHeight := true }, noEmits) := by
      unfold setContentHeight
      simp [hf]
    have hfr := updateLayout_height_frozen { s with hasContentHeight := true } rfl
    rw [he]
    exact ⟨rfl, rfl, hfr.1, hfr.2⟩

theorem setContent_flag_unconditional_witness :
    ((setContentWidth exMixed 0).1.hasContentWidth = true) ∧
    ((setContentWidth exMixed 0).2 = noEmits) ∧
    ((updateLayout (setContentWidth exMixed 0).1).2.contentWidthChanged = false) :=
  ⟨(setContent_flag_unconditional exMixed 0 0).1,
   ((setContent_flag_unconditional exMixed 0 0).2.1 (qFuzzyCompare_self 0)).2.1,
   ((setContent_flag_unconditional exMixed 0 0).2.1 (qFuzzyCompare_self 0)).2.2.2⟩

theorem updateCurrentItem_currentIndex (s : TabBarState) :
    (updateCurrentItem s).currentIndex = s.currentIndex := by
  unfold updateCurrentItem
  cases castTabButton (contentModelGet s.items s.currentIndex) <;> rfl

theorem castTabButton_some (o : Option Item) (it : Item)
    (h : castTabButton o = some it) : o = some it ∧ it.isTabButton = true := by
  cases o with
  | none => simp [castTabButton] at h
  | some it0 =>
    by_cases hb : it0.isTabButton = true
    · rw [castTabButton, if_pos hb] at h
      obtain rfl : it0 = it := by simpa using h
      exact ⟨rfl, hb⟩
    · rw [castTabButton, if_neg hb] at h
      simp at h

theorem contentModelGet_some (items : List (Option Item)) (idx : ℤ) (it : Item)
    (h : contentModelGet items idx = some it) :
    0 ≤ idx ∧ items.get? idx.toNat = some (some it) := by
  unfold contentModelGet at h
  by_cases hnn : 0 ≤ idx
  · refine ⟨hnn, ?_⟩
    rw [if_pos hnn] at h
    cases hg : items.get? idx.toNat with
    | none => rw [hg] at h; simp at h
    | some o =>
      rw [hg] at h
      cases o with
      | none => simp at h
      | some it2 =>
        obtain rfl : it2 = it := by simpa using h
        rfl
  · rw [if_neg hnn] at h
    simp at h

/-- C6: whenever `currentIndex` changes, `updateCurrentItem` looks up the
child at the new index; when the lookup yields a tab button, that child's
checked flag is set to true (and nothing else changes); when the lookup
misses — negative index, index out of range, or a child that is not a tab
button — the call is a no-op: no error, no state change. -/
theorem updateCurrentItem_spec (s : TabBarState) :
    ({ updateCurrentItem s with items := s.items } = s) ∧
    (castTabButton (contentModelGet s.items s.currentIndex) = none →
      updateCurrentItem s = s) ∧
    (∀ it : Item,
      castTabButton (contentModelGet s.items s.currentIndex) = some it →
      (updateCurrentItem s).items.get? s.currentIndex.toNat =
        some (some { it with checked := true }) ∧
      ∀ j : ℕ, j ≠ s.currentIndex.toNat →
        (updateCurrentItem s).items.get? j = s.items.get? j) := by
  refine ⟨?_, ?_, ?_⟩
  · unfold updateCurrentItem
    cases castTabButton (contentModelGet s.items s.currentIndex) <;> rfl
  · intro h
    unfold updateCurrentItem
    rw [h]
  · intro it h
    obtain ⟨-, hg⟩ :=
      contentModelGet_some s.items s.currentIndex it (castTabButton_some _ _ h).1
    unfold updateCurrentItem
    rw [h]
    constructor
    · show (modifyItem (fun x => { x with checked := true })
          s.items s.currentIndex.toNat).get? s.currentIndex.toNat = _
      rw [modifyItem_get?_eq, hg]
      rfl
    · intro j hj
      show (modifyItem (fun x => { x with checked := true })
          s.items s.currentIndex.toNat).get? j = _
      exact modifyItem_get?_ne _ _ _ _ (fun he2 => hj he2.symm)

/-- A state whose current index 0 points at a (resizable) tab button. -/
def exSelHit : TabBarState :=
  ⟨[some exItemR], 0, some 100, false, false, false, 0, 0, 0, true⟩

/-- A state whose current index 5 is out of range. -/
def exSelMiss : TabBarState :=
  ⟨[some exItemR], 0, some 100, false, false, false, 0, 0, 5, true⟩

theorem updateCurrentItem_spec_witness :
    (updateCurrentItem exSelHit).items.get? 0 =
      some (some { exItemR with checked := true }) ∧
    updateCurrentItem exSelMiss = exSelMiss :=
  ⟨((updateCurrentItem_spec exSelHit).2.2 exItemR rfl).1,
   (updateCurrentItem_spec exSelMiss).2.1 rfl⟩

/-- C5: when the child at position `j` — a tab button — reports its checked
flag changed and the flag is now true, `updateCurrentIndex` makes `j` the
current index; when the flag is now false the whole state is left
unchanged. -/
theorem updateCurrentIndex_spec (s : TabBarState) (j : ℕ) (it : Item)
    (hget : s.items.get? j = some (some it)) (hbtn : it.isTabButton = true) :
    (it.checked = true → (updateCurrentIndex s j).currentIndex = (j : ℤ)) ∧
    (it.checked = false → updateCurrentIndex s j = s) := by
  have hj : (s.items.get? j).join = some it := by rw [hget]; rfl
  constructor
  · intro hch
    unfold updateCurrentIndex
    rw [hj]
    simp only [hbtn, hch, Bool.and_self, if_true]
    unfold setCurrentIndex
    by_cases he : s.currentIndex = (j : ℤ)
    · rw [if_pos he]
      exact he
    · rw [if_neg he, updateCurrentItem_currentIndex]
  · intro hch
    unfold updateCurrentIndex
    rw [hj]
    simp [hch]

/-- A bar with an unchecked tab button at 0 and a checked one at 1. -/
def exItemC : Item := ⟨50, 50, 20, false, true, true⟩

def exSelTwo : TabBarState :=
  ⟨[some exItemR, some exItemC], 0, some 100, false, false, false, 0, 0, 0, true⟩

theorem updateCurrentIndex_spec_witness :
    (updateCurrentIndex exSelTwo 1).currentIndex = 1 ∧
    updateCurrentIndex exSelTwo 0 = exSelTwo :=
  ⟨(updateCurrentIndex_spec exSelTwo 1 exItemC rfl rfl).1 rfl,
   (updateCurrentIndex_spec exSelTwo 0 exItemR rfl rfl).2 rfl⟩

/-- A complete bar whose stored content width is stale while the override
flag is clear. -/
def exStale : TabBarState :=
  ⟨[some exItemR], 0, some 300, false, false, false, 123, 0, 0, true⟩

/-- C7 counterexample: in a fully constructed state whose override flag is
already clear, `resetContentWidth` returns immediately and does not run
`updateLayout` — although running it would have changed the stored content
width and emitted a notification. -/
theorem resetContentWidth_cex :
    exStale.componentComplete = true ∧
    (resetContentWidth exStale).2.contentWidthChanged = false ∧
    (updateLayout { exStale with hasContentWidth := false }).2.contentWidthChanged
      = true ∧
    resetContentWidth exStale ≠
      updateLayout { exStale with hasContentWidth := false } := by
  have h3 : (updateLayout { exStale with hasContentWidth := false }).2.contentWidthChanged = true := by
    show (updateLayout exStale).2.contentWidthChanged = true
    norm_num [updateLayout, scanItems, totalSpacingOf, qMaxInt, qFuzzyCompare,
      qAbs, qMin, qMax, exStale, exItemR, noEmits]
  refine ⟨rfl, rfl, h3, ?_⟩
  intro hcontra
  have h2 : (resetContentWidth exStale).2.contentWidthChanged = false := rfl
  rw [hcontra, h3] at h2
  exact absurd h2 (by simp)

/-- C7 (amended): when the override flag is set, `resetContentWidth` clears
it and, if the control is fully constructed, immediately runs `updateLayout`
so the derived content width takes over (without construction complete, no
recompute); when the flag is already clear the call is a no-op and no
recompute runs.  In every case the flag is clear afterwards.  Symmetrically
for `resetContentHeight`. -/
theorem resetContent_spec (s : TabBarState) :
    ((resetContentWidth s).1.hasContentWidth = false) ∧
    (s.hasContentWidth = true → s.componentComplete = true →
      resetContentWidth s = updateLayout { s with hasContentWidth := false }) ∧
    (s.hasContentWidth = true → s.componentComplete = false →
      resetContentWidth s = ({ s with hasContentWidth := false }, noEmits)) ∧
    (s.hasContentWidth = false → resetContentWidth s = (s, noEmits)) ∧
    ((resetContentHeight s).1.hasContentHeight = false) ∧
    (s.hasContentHeight = true → s.componentComplete = true →
      resetContentHeight s = updateLayout { s with hasContentHeight := false }) ∧
    (s.hasContentHeight = true → s.componentComplete = false →
      resetContentHeight s = ({ s with hasContentHeight := false }, noEmits)) ∧
    (s.hasContentHeight = false → resetContentHeight s = (s, noEmits)) := by
  refine ⟨?_, ?_, ?_, ?_, ?_, ?_, ?_, ?_⟩
  · cases hw : s.hasContentWidth with
    | false => simp [resetContentWidth, hw]
    | true =>
      cases hcc : s.componentComplete with
      | false => simp [resetContentWidth, hw, hcc]
      | true =>
        simp only [resetContentWidth, hw, Bool.not_true, Bool.false_eq_true,
          if_false, hcc, if_true]
        exact (updateLayout_frame _).1
  · intro hw hcc
    simp [resetContentWidth, hw, hcc]
  · intro hw hcc
    simp [resetContentWidth, hw, hcc]
  · intro hw
    simp [resetContentWidth, hw]
  · cases hh : s.hasContentHeight with
    | false => simp [resetContentHeight, hh]
    | true =>
      cases hcc : s.componentComplete with
      | false => simp [resetContentHeight, hh, hcc]
      | true =>
        simp only [resetContentHeight, hh, Bool.not_true, Bool.false_eq_true,
          if_false, hcc, if_true]
        exact (updateLayout_frame _).2.1
  · intro hh hcc
    simp [resetContentHeight, hh, hcc]
  · intro hh hcc
    simp [resetContentHeight, hh, hcc]
  · intro hh
    simp [resetContentHeight, hh]

theorem resetContent_spec_witness :
    resetContentWidth exOverridden =
      updateLayout { exOverridden with hasContentWidth := false } ∧
    (resetContentHeight exOverridden).1.hasContentHeight = false :=
  ⟨(resetContent_spec exOverridden).2.1 rfl rfl,
   (resetContent_spec exOverridden).2.2.2.2.1⟩

/-- C8: after a layout pass over a state containing a resizable child, that
child has been assigned the computed per-item width with its explicit-width
flag cleared again, the guard is down, and a later implicit-width change
(while the content width is not overridden) re-runs the layout. -/
theorem resizable_flag_cleared (s : TabBarState) (ciw : ℚ) (j : ℕ) (it : Item)
    (hc : s.contentItemWidth = some ciw)
    (hget : s.items.get? j = some (some it)) (hv : it.widthValid = false) :
    (updateLayout s).1.items.get? j =
      some (some { it with width := perItemWidth s ciw, widthValid := false }) ∧
    (updateLayout s).1.updatingLayout = false ∧
    ((updateLayout s).1.hasContentWidth = false →
      itemImplicitWidthChanged (updateLayout s).1 =
        updateLayout (updateLayout s).1) := by
  have hn : ¬s.items.length = 0 := by
    intro h0
    rw [List.length_eq_zero] at h0
    rw [h0] at hget
    simp at hget
  have hmem : j ∈ (scanItems 0 s.items).resizable := by
    have := scanItems_resizable_mem s.items 0 j it hget hv
    simpa using this
  have hr : ¬(scanItems 0 s.items).resizable.isEmpty = true := by
    intro hemp
    rw [List.isEmpty_iff] at hemp
    rw [hemp] at hmem
    simp at hmem
  obtain ⟨hitems, hupd⟩ := updateLayout_resizable_items s ciw hc hn hr
  refine ⟨?_, hupd, ?_⟩
  · rw [hitems, assignWidths_get?_mem _ _ _ _ hmem, hget]
    rfl
  · intro hw
    unfold itemImplicitWidthChanged
    rw [hupd, hw]
    rfl

theorem resizable_flag_cleared_witness :
    (updateLayout exMixed).1.items.get? 0 =
      some (some { exItemR with
        width := perItemWidth exMixed 300
        widthValid := false }) :=
  (resizable_flag_cleared exMixed 300 0 exItemR rfl rfl rfl).1

/-- Total of the children's widths (a null entry contributes nothing). -/
def widthSum (items : List (Option Item)) : ℚ :=
  (items.map (fun o => match o with | some it => it.width | none => 0)).sum

theorem widthSum_const (l : List (Option Item)) (c : ℚ)
    (h : ∀ o ∈ l, ∃ it : Item, o = some it ∧ it.width = c) :
    widthSum l = l.length * c := by
  induction l with
  | nil => simp [widthSum]
  | cons o rest ih =>
    obtain ⟨it, rfl, hw⟩ := h _ (List.mem_cons_self _ _)
    have hr := ih (fun o ho => h o (List.mem_cons_of_mem _ ho))
    simp only [widthSum, List.map_cons, List.sum_cons] at hr ⊢
    rw [hw, hr, List.length_cons]
    push_cast
    ring

/-- C2: with `n ≥ 1` children none of which has an explicit width set, every
child is assigned the same width `(availableContentWidth - totalSpacing) / n`
(unclamped, so possibly zero or negative when space is insufficient), and
the assigned widths plus the total spacing sum exactly to the available
content width. -/
theorem equal_distribution (s : TabBarState) (ciw : ℚ) (n : ℕ)
    (hc : s.contentItemWidth = some ciw) (hn : s.items.length = n) (hpos : 1 ≤ n)
    (hall : ∀ o ∈ s.items, ∃ it : Item, o = some it ∧ it.widthValid = false) :
    (∀ o ∈ (updateLayout s).1.items, ∃ it : Item, o = some it ∧
      it.width = (ciw - totalSpacingOf n s.spacing) / (n : ℚ)) ∧
    widthSum (updateLayout s).1.items + totalSpacingOf n s.spacing = ciw := by
  obtain ⟨hres, hidx⟩ := scanItems_all_resizable s.items 0 hall
  have hn0 : ¬s.items.length = 0 := by omega
  have hrne : ¬(scanItems 0 s.items).resizable.isEmpty = true := by
    rw [hidx, hn]
    intro hemp
    rw [List.isEmpty_iff] at hemp
    have hlen := congrArg List.length hemp
    simp only [List.length_range', List.length_nil] at hlen
    omega
  obtain ⟨hitems, -⟩ := updateLayout_resizable_items s ciw hc hn0 hrne
  have hw : perItemWidth s ciw = (ciw - totalSpacingOf n s.spacing) / (n : ℚ) := by
    rw [perItemWidth, hres, hidx, hn, List.length_range', sub_zero]
  have hmap : assignWidths s.items (scanItems 0 s.items).resizable
        (perItemWidth s ciw)
      = s.items.map (Option.map (assignFun (perItemWidth s ciw))) := by
    apply List.ext_get?
    intro k
    rw [List.get?_map]
    by_cases hk : k < n
    · have hkmem : k ∈ (scanItems 0 s.items).resizable := by
        rw [hidx, hn]
        exact List.mem_range'_1.mpr ⟨Nat.zero_le k, by omega⟩
      rw [assignWidths_get?_mem _ _ _ _ hkmem]
    · have hknot : k ∉ (scanItems 0 s.items).resizable := by
        rw [hidx, hn]
        intro hmem
        rw [List.mem_range'_1] at hmem
        omega
      rw [assignWidths_get?_not_mem _ _ _ _ hknot,
        List.get?_eq_none.mpr (by omega)]
      rfl
  rw [hitems, hmap]
  have hconst : ∀ o ∈ s.items.map (Option.map (assignFun (perItemWidth s ciw))),
      ∃ it : Item, o = some it ∧
        it.width = (ciw - totalSpacingOf n s.spacing) / (n : ℚ) := by
    intro o ho
    rw [List.mem_map] at ho
    obtain ⟨o2, ho2, rfl⟩ := ho
    obtain ⟨it2, rfl, -⟩ := hall o2 ho2
    exact ⟨_, rfl, by rw [← hw]; rfl⟩
  refine ⟨hconst, ?_⟩
  rw [widthSum_const _ _ hconst, List.length_map, hn]
  have hne : (n : ℚ) ≠ 0 := Nat.cast_ne_zero.mpr (by omega)
  field_simp

/-- Three resizable tab buttons with implicit widths 50, 60, 70. -/
def exItem60 : Item := ⟨60, 60, 30, false, true, false⟩

def exItem70 : Item := ⟨70, 70, 25, false, true, false⟩

def exShare : TabBarState :=
  ⟨[some exItemR, some exItem60, some exItem70], 10, some 300,
   false, false, false, 0, 0, 0, true⟩

theorem equal_distribution_witness :
    widthSum (updateLayout exShare).1.items +
      totalSpacingOf 3 exShare.spacing = 300 :=
  (equal_distribution exShare 300 3 rfl rfl (by norm_num) (by
    intro o ho
    simp only [exShare, List.mem_cons, List.not_mem_nil, or_false] at ho
    rcases ho with rfl | rfl | rfl
    · exact ⟨exItemR, rfl, rfl⟩
    · exact ⟨exItem60, rfl, rfl⟩
    · exact ⟨exItem70, rfl, rfl⟩)).2

theorem scanItems_assignWidths (l : List (Option Item)) (w : ℚ) :
    scanItems 0 (assignWidths l (scanItems 0 l).resizable w) = scanItems 0 l := by
  refine scanItems_congr _ _ ?_ 0
  refine assignWidths_scanKey _ _ _ ?_
  intro j hj it hget
  obtain ⟨-, it0, hget0, hv0⟩ := scanItems_resizable_spec l 0 j hj
  rw [Nat.sub_zero] at hget0
  rw [hget] at hget0
  obtain rfl : it = it0 := by simpa using hget0
  exact hv0

theorem assignWidths_idem (l : List (Option Item)) (idxs : List ℕ) (w : ℚ) :
    assignWidths (assignWidths l idxs w) idxs w = assignWidths l idxs w := by
  apply List.ext_get?
  intro n
  by_cases hm : n ∈ idxs
  · rw [assignWidths_get?_mem _ _ _ _ hm, assignWidths_get?_mem _ _ _ _ hm]
    cases hln : l.get? n with
    | none => rfl
    | some o =>
      cases o with
      | none => rfl
      | some it => simp [assignFun_idem]
  · rw [assignWidths_get?_not_mem _ _ _ _ hm,
      assignWidths_get?_not_mem _ _ _ _ hm]

theorem updateLayout_content (s : TabBarState) (ciw : ℚ)
    (hc : s.contentItemWidth = some ciw) (hn : ¬s.items.length = 0) :
    (updateLayout s).1.contentWidth =
      (if !s.hasContentWidth && !qFuzzyCompare s.contentWidth
            ((scanItems 0 s.items).totalWidth +
              totalSpacingOf s.items.length s.spacing)
        then (scanItems 0 s.items).totalWidth +
              totalSpacingOf s.items.length s.spacing
        else s.contentWidth) ∧
    (updateLayout s).1.contentHeight =
      (if !s.hasContentHeight && !qFuzzyCompare s.contentHeight
            (scanItems 0 s.items).maxHeight
        then (scanItems 0 s.items).maxHeight
        else s.contentHeight) := by
  unfold updateLayout
  simp only [hc]
  rw [if_neg hn]
  by_cases hre : (scanItems 0 s.items).resizable.isEmpty = true <;>
    simp [hre]

theorem updateLayout_noop (t : TabBarState) (ciw : ℚ)
    (hc : t.contentItemWidth = some ciw) (hn : ¬t.items.length = 0)
    (hitems : assignWidths t.items (scanItems 0 t.items).resizable
      (perItemWidth t ciw) = t.items)
    (hupd : (scanItems 0 t.items).resizable.isEmpty = true ∨
      t.updatingLayout = false)
    (hfw : (!t.hasContentWidth && !qFuzzyCompare t.contentWidth
      ((scanItems 0 t.items).totalWidth +
        totalSpacingOf t.items.length t.spacing)) = false)
    (hfh : (!t.hasContentHeight && !qFuzzyCompare t.contentHeight
      (scanItems 0 t.items).maxHeight) = false) :
    updateLayout t = (t, noEmits) := by
  unfold perItemWidth at hitems
  obtain ⟨ti, tsp, tciw, tupd, thw, thh, tcw, tch, tci, tcc⟩ := t
  dsimp only at hc hn hitems hupd hfw hfh
  subst hc
  unfold updateLayout
  dsimp only
  rw [if_neg hn]
  by_cases hre : (scanItems 0 ti).resizable.isEmpty = true
  · rw [if_pos hre]
    dsimp only
    rw [hfw, hfh]
    rfl
  · rcases hupd with hupd | hupd
    · exact absurd hupd hre
    subst hupd
    rw [if_neg hre]
    dsimp only
    rw [hitems]
    rw [hfw, hfh]
    rfl

theorem updateLayout_stable (s : TabBarState) :
    updateLayout (updateLayout s).1 = ((updateLayout s).1, noEmits) := by
  cases hc : s.contentItemWidth with
  | none =>
    rw [updateLayout_skip s (Or.inl hc)]
    exact updateLayout_skip s (Or.inl hc)
  | some ciw =>
    by_cases hn : s.items.length = 0
    · rw [updateLayout_skip s (Or.inr hn)]
      exact updateLayout_skip s (Or.inr hn)
    · obtain ⟨hw1, hh1, hsp1, hciw1, -, -, hlen1⟩ := updateLayout_frame s
      have hc1 : (updateLayout s).1.contentItemWidth = some ciw := by
        rw [hciw1, hc]
      have hn1 : ¬(updateLayout s).1.items.length = 0 := by
        rw [hlen1]
        exact hn
      have hscan : scanItems 0 (updateLayout s).1.items = scanItems 0 s.items := by
        by_cases hre : (scanItems 0 s.items).resizable.isEmpty = true
        · rw [(updateLayout_no_resizable_items s ciw hc hn hre).1]
        · rw [(updateLayout_resizable_items s ciw hc hn hre).1]
          exact scanItems_assignWidths s.items (perItemWidth s ciw)
      have hpw : perItemWidth (updateLayout s).1 ciw = perItemWidth s ciw := by
        unfold perItemWidth
        rw [hscan, hlen1, hsp1]
      have hitems : assignWidths (updateLayout s).1.items
          (scanItems 0 (updateLayout s).1.items).resizable
          (perItemWidth (updateLayout s).1 ciw) = (updateLayout s).1.items := by
        rw [hscan, hpw]
        by_cases hre : (scanItems 0 s.items).resizable.isEmpty = true
        · rw [(updateLayout_no_resizable_items s ciw hc hn hre).1]
          rw [List.isEmpty_iff] at hre
          rw [hre]
          rfl
        · rw [(updateLayout_resizable_items s ciw hc hn hre).1]
          exact assignWidths_idem _ _ _
      have hupd : (scanItems 0 (updateLayout s).1.items).resizable.isEmpty = true ∨
          (updateLayout s).1.updatingLayout = false := by
        by_cases hre : (scanItems 0 s.items).resizable.isEmpty = true
        · left
          rw [hscan]
          exact hre
        · right
          exact (updateLayout_resizable_items s ciw hc hn hre).2
      obtain ⟨hcw, hch⟩ := updateLayout_content s ciw hc hn
      have hfw : (!(updateLayout s).1.hasContentWidth &&
          !qFuzzyCompare (updateLayout s).1.contentWidth
            ((scanItems 0 (updateLayout s).1.items).totalWidth +
              totalSpacingOf (updateLayout s).1.items.length
                (updateLayout s).1.spacing)) = false := by
        rw [hscan, hlen1, hsp1, hw1, hcw]
        cases hwq : s.hasContentWidth with
        | true => rfl
        | false =>
          cases hfz : qFuzzyCompare s.contentWidth
              ((scanItems 0 s.items).totalWidth +
                totalSpacingOf s.items.length s.spacing) with
          | true => simp [hfz]
          | false => simp [hfz, qFuzzyCompare_self]
      have hfh : (!(updateLayout s).1.hasContentHeight &&
          !qFuzzyCompare (updateLayout s).1.contentHeight
            (scanItems 0 (updateLayout s).1.items).maxHeight) = false := by
        rw [hscan, hh1, hch]
        cases hhq : s.hasContentHeight with
        | true => rfl
        | false =>
          cases hfz : qFuzzyCompare s.contentHeight
              (scanItems 0 s.items).maxHeight with
          | true => simp [hfz]
          | false => simp [hfz, qFuzzyCompare_self]
      exact updateLayout_noop (updateLayout s).1 ciw hc1 hn1 hitems hupd hfw hfh

/-- C4: `updateLayout` is idempotent with respect to notifications: calling
it again right away, with no intervening change to any input, leaves the
stored content width and content height unchanged and emits no
content-width-changed or content-height-changed notification. -/
theorem updateLayout_idempotent (s : TabBarState) :
    (updateLayout (updateLayout s).1).1.contentWidth =
      (updateLayout s).1.contentWidth ∧
    (updateLayout (updateLayout s).1).1.contentHeight =
      (updateLayout s).1.contentHeight ∧
    (updateLayout (updateLayout s).1).2 = noEmits := by
  rw [updateLayout_stable s]
  exact ⟨rfl, rfl, rfl⟩

theorem merge_noEmits_left (e : Emits) : noEmits.merge e = e := by
  cases e
  simp [Emits.merge, noEmits]

theorem merge_noEmits_right (e : Emits) : e.merge noEmits = e := by
  cases e
  simp [Emits.merge, noEmits]

theorem itemGeometryChanged_guard (s : TabBarState)
    (h : s.updatingLayout = true) : itemGeometryChanged s = (s, noEmits) := by
  unfold itemGeometryChanged
  rw [if_pos h]

theorem foldl_assignStepNotified (w : ℚ) (idxs : List ℕ) (s : TabBarState)
    (e : Emits) (h : s.updatingLayout = true) :
    List.foldl (assignStepNotified w) (s, e) idxs =
      ({ s with items := assignWidths s.items idxs w }, e) := by
  induction idxs generalizing s e with
  | nil => rfl
  | cons i rest ih =>
    rw [List.foldl_cons]
    have hstep : assignStepNotified w (s, e) i =
        ({ s with items := modifyItem (assignFun w) s.items i }, e) := by
      unfold assignStepNotified
      dsimp only
      rw [itemGeometryChanged_guard
        { s with items := modifyItem (fun it => it.setWidth w) s.items i } h]
      dsimp only
      rw [modifyItem_comp, merge_noEmits_right]
      rfl
    rw [hstep, ih { s with items := modifyItem (assignFun w) s.items i } e h]
    rfl

theorem updateLayout_updating (s : TabBarState) (h : s.updatingLayout = false) :
    (updateLayout s).1.updatingLayout = false := by
  cases hc : s.contentItemWidth with
  | none =>
    rw [updateLayout_skip s (Or.inl hc)]
    exact h
  | some ciw =>
    by_cases hn : s.items.length = 0
    · rw [updateLayout_skip s (Or.inr hn)]
      exact h
    · by_cases hre : (scanItems 0 s.items).resizable.isEmpty = true
      · rw [(updateLayout_no_resizable_items s ciw hc hn hre).2]
        exact h
      · exact (updateLayout_resizable_items s ciw hc hn hre).2

theorem updateLayoutNotified_eq (s : TabBarState) :
    updateLayoutNotified s = updateLayout s := by
  unfold updateLayoutNotified updateLayout
  cases hc : s.contentItemWidth with
  | none => rfl
  | some ciw =>
    dsimp only
    by_cases hn : s.items.length = 0
    · rw [if_pos hn, if_pos hn]
    · rw [if_neg hn, if_neg hn]
      by_cases hre : (scanItems 0 s.items).resizable.isEmpty = true
      · rw [if_pos hre, if_pos hre]
        dsimp only
        rw [merge_noEmits_left]
      · rw [if_neg hre, if_neg hre]
        dsimp only
        rw [foldl_assignStepNotified _ _
          { s with contentItemWidth := some ciw, updatingLayout := true } noEmits rfl]
        dsimp only
        rw [merge_noEmits_left]

/-- C1: assigning a width to a resizable child inside `updateLayout` never
re-enters it: the `updatingLayout` guard is raised only around the
width-assignment loop and a geometry notification arriving while it is
raised performs no layout work, so the run with those notifications
modelled explicitly coincides with the plain run; on every exit path the
guard is false again. -/
theorem no_reentrant_layout (s : TabBarState) (h : s.updatingLayout = false) :
    updateLayoutNotified s = updateLayout s ∧
    (updateLayout s).1.updatingLayout = false ∧
    (updateLayoutNotified s).1.updatingLayout = false ∧
    (∀ t : TabBarState, t.updatingLayout = true →
      itemGeometryChanged t = (t, noEmits)) := by
  refine ⟨updateLayoutNotified_eq s, updateLayout_updating s h, ?_, ?_⟩
  · rw [updateLayoutNotified_eq s]
    exact updateLayout_updating s h
  · intro t ht
    exact itemGeometryChanged_guard t ht

theorem no_reentrant_layout_witness :
    updateLayoutNotified exShare = updateLayout exShare ∧
    (updateLayout exShare).1.updatingLayout = false :=
  ⟨(no_reentrant_layout exShare rfl).1, (no_reentrant_layout exShare rfl).2.1⟩

end QQuickTabBar
